import Mathlib

/-!
Shallow embedding of src/lambda_ssl_pinning.py, an AWS Lambda authorizer that
pins a TLS certificate chain: it retrieves the live verified chain of a host,
normalizes each entry by removing all whitespace, compares positions 0/1/2
against pinned reference certificates, and emits an Allow/Deny IAM policy.

Python effects are made explicit: fallible operations return Except PyError,
the network and the secret store are oracle parameters, and machine strings
are Lean Strings.
-/

/-- Kinds of Python exceptions that can arise in the embedded code; the source
only ever catches them with a blanket `except Exception`, so the constructors
merely record which stage failed. -/
inductive PyError where
  | keyError
  | typeError
  | indexError
  | dnsError
  | connectionRefused
  | handshakeError
  | timeoutError
  | conversionError
  | clientError
  | jsonError
  deriving DecidableEq, Repr

/-- Whitespace characters recognized by the Python method str.split() (ASCII fragment:
space, tab, newline, carriage return, vertical tab, form feed). -/
def isPySpace (c : Char) : Bool :=
  c = ' ' || c = '\t' || c = '\n' || c = '\r' || c = '\x0b' || c = '\x0c'

/-- Accumulator-style model of Python str.split(): splits a character list on
runs of whitespace, discarding empty pieces. The accumulator holds the current
word reversed. -/
def pySplitChars : List Char → List Char → List (List Char)
  | [], acc => if acc.isEmpty then [] else [acc.reverse]
  | c :: cs, acc =>
    if isPySpace c then
      if acc.isEmpty then pySplitChars cs []
      else acc.reverse :: pySplitChars cs []
    else pySplitChars cs (c :: acc)

/-- Model of Python "".join(s.split()): split on whitespace runs and
concatenate the pieces. Used by ServerConfig construction (lines 27-29) and
extract_certificate (line 100) of the source. -/
def pyStripAll (s : String) : String :=
  String.mk (pySplitChars s.data []).flatten

/-- The ServerConfig dataclass (source lines 18-29) after __post_init__ has
run: host URL, port, and the three pinned certificates. -/
structure ServerConfig where
  URL : String
  Port : Int
  ServerCert : String
  IntermediateCert : String
  RootCert : String
  deriving DecidableEq, Repr

/-- The parsed JSON secret passed to ServerConfig(**secrets_dict): each of the
five dataclass fields is either present or absent. -/
structure ConfigDict where
  URL : Option String
  Port : Option Int
  ServerCert : Option String
  IntermediateCert : Option String
  RootCert : Option String
  deriving DecidableEq, Repr

/-- Calling ServerConfig(**d) followed by __post_init__ (source lines 18-29):
a missing keyword argument raises TypeError; otherwise the dataclass is built
and the three certificate fields are whitespace-stripped in place. No other
validation is performed by the source. -/
def ServerConfig.fromDict (d : ConfigDict) : Except PyError ServerConfig :=
  match d.URL, d.Port, d.ServerCert, d.IntermediateCert, d.RootCert with
  | some url, some port, some sc, some ic, some rc =>
    .ok ⟨url, port, pyStripAll sc, pyStripAll ic, pyStripAll rc⟩
  | _, _, _, _, _ => .error PyError.typeError

/-- DER-encoded certificate bytes as returned by get_verified_chain. -/
abbrev Der := List Nat

/-- Oracle for the network world seen by get_certificate_chain: performing the
TCP connection plus TLS handshake against host:port either raises (DNS,
refusal, handshake, timeout, ...) or yields the verified DER chain in
server-to-root order; DER-to-PEM conversion of one certificate either raises
or yields the PEM text. -/
structure Network where
  handshake : String → Int → Except PyError (List Der)
  derToPem : Der → Except PyError String

/-- Python list comprehension [f(x) for x in xs] over a fallible f: elements
are converted left to right and the first exception aborts the whole
comprehension. -/
def mapExcept (f : α → Except PyError β) : List α → Except PyError (List β)
  | [] => .ok []
  | a :: as => do
    let b ← f a
    let bs ← mapExcept f as
    pure (b :: bs)

/-- get_certificate_chain (source lines 32-61): connect, handshake, take the
verified chain, convert every entry from DER to PEM; the blanket
except-Exception handler turns ANY failure into an empty list. -/
def get_certificate_chain (net : Network) (hostname : String) (port : Int) : List String :=
  match (do
      let cert_chain ← net.handshake hostname port
      mapExcept net.derToPem cert_chain : Except PyError (List String)) with
  | .ok pem_certificates => pem_certificates
  | .error _ => []

/-- One statement of the generated IAM policy document. -/
structure PolicyStatement where
  Action : String
  Effect : String
  Resource : String
  deriving DecidableEq, Repr

/-- The policyDocument part of the generated policy. -/
structure PolicyDocument where
  Version : String
  Statement : List PolicyStatement
  deriving DecidableEq, Repr

/-- The dict returned by generate_policy and lambda_handler. -/
structure Policy where
  principalId : String
  policyDocument : PolicyDocument
  deriving DecidableEq, Repr

/-- generate_policy (source lines 64-85). -/
def generate_policy (principal_id : String) (effect : String) (resource : String) : Policy :=
  ⟨principal_id, ⟨"2012-10-17", [⟨"execute-api:Invoke", effect, resource⟩]⟩⟩

/-- Python list indexing xs[i]: non-negative indices count from the front,
negative indices count from the back; none models IndexError. -/
def pyGet (xs : List String) (i : Int) : Option String :=
  if 0 ≤ i then xs.get? i.toNat
  else if 0 ≤ (xs.length : Int) + i then xs.get? ((xs.length : Int) + i).toNat
  else none

/-- extract_certificate (source lines 88-101): if len(cert_chain) > index,
return cert_chain[index] with all whitespace removed, else return None. An
IndexError from a too-negative index propagates as an exception. -/
def extract_certificate (cert_chain : List String) (index : Int) : Except PyError (Option String) :=
  if index < (cert_chain.length : Int) then
    match pyGet cert_chain index with
    | some s => .ok (some (pyStripAll s))
    | none => .error PyError.indexError
  else
    .ok none

/-- Python == between a pinned str and a retrieved str-or-None: comparing a
string with None is False, never an error. -/
def pyEqOpt (pinned : String) (retrieved : Option String) : Bool :=
  match retrieved with
  | some s => pinned == s
  | none => false

/-- The binary outcome of the comparison. -/
inductive Decision where
  | Allow
  | Deny
  deriving DecidableEq, Repr

/-- The comparison block of lambda_handler (source lines 134-156): extract
positions 0, 1, 2 of the retrieved chain, compare each against the pinned
field, Allow iff all three match. -/
def decideAccess (server_config : ServerConfig) (retrieved_cert_chain : List String) :
    Except PyError Decision := do
  let server_cert ← extract_certificate retrieved_cert_chain 0
  let intermediate_cert ← extract_certificate retrieved_cert_chain 1
  let root_cert ← extract_certificate retrieved_cert_chain 2
  let cert_results := [pyEqOpt server_config.ServerCert server_cert,
                       pyEqOpt server_config.IntermediateCert intermediate_cert,
                       pyEqOpt server_config.RootCert root_cert]
  if cert_results.all id then
    pure Decision.Allow
  else
    pure Decision.Deny

/-- The incoming API Gateway event, reduced to the two entries the handler
reads; none models any missing level of the nested dict, whose lookup raises
KeyError. -/
structure Event where
  sourceIp : Option String
  methodArn : Option String
  deriving DecidableEq, Repr

/-- Python dict lookup event[...]: KeyError when the key is absent. -/
def pyLookup (o : Option String) : Except PyError String :=
  match o with
  | some v => .ok v
  | none => .error PyError.keyError

/-- The try block of source lines 115-119: fetch the secret string and parse
it (collapsed into the fetch oracle), then build the ServerConfig. -/
def loadConfig (fetch : String → Except PyError ConfigDict) (secret_name : String) :
    Except PyError ServerConfig := do
  let secrets_dict ← fetch secret_name
  ServerConfig.fromDict secrets_dict

/-- lambda_handler (source lines 104-156). Oracles: secret_name is
os.getenv("secret_name"), fetch is get_secret_value plus json.loads, net is
the TLS world. Python truthiness: `if not secret_name` fires on None and on
the empty string; `if not retrieved_cert_chain` fires on the empty list. -/
def lambda_handler (event : Event) (secret_name : Option String)
    (fetch : String → Except PyError ConfigDict) (net : Network) :
    Except PyError Policy := do
  let requester_ip ← pyLookup event.sourceIp
  match secret_name with
  | none => do
    let arn ← pyLookup event.methodArn
    pure (generate_policy requester_ip "Deny" arn)
  | some sn =>
    if sn = "" then do
      let arn ← pyLookup event.methodArn
      pure (generate_policy requester_ip "Deny" arn)
    else
      match loadConfig fetch sn with
      | .error _ => do
        let arn ← pyLookup event.methodArn
        pure (generate_policy "user" "Deny" arn)
      | .ok server_config =>
        let retrieved_cert_chain := get_certificate_chain net server_config.URL server_config.Port
        if retrieved_cert_chain.isEmpty then do
          let arn ← pyLookup event.methodArn
          pure (generate_policy requester_ip "Deny" arn)
        else do
          let d ← decideAccess server_config retrieved_cert_chain
          let arn ← pyLookup event.methodArn
          match d with
          | Decision.Allow => pure (generate_policy requester_ip "Allow" arn)
          | Decision.Deny => pure (generate_policy requester_ip "Deny" arn)

/-- A network where the connection is refused: every stage fails. -/
def netRefused : Network :=
  ⟨fun _ _ => .error PyError.connectionRefused, fun _ => .error PyError.conversionError⟩

/-- A network presenting two DER certificates that both convert to "PEM". -/
def netTwoCerts : Network :=
  ⟨fun _ _ => .ok [[1], [2]], fun _ => .ok "PEM"⟩

/-- A network presenting a three-certificate chain whose server entry is a
lone space, so it strips to the empty string. -/
def netBlankServer : Network :=
  ⟨fun _ _ => .ok [[0], [1], [2]],
   fun d =>
     match d with
     | [0] => .ok " "
     | [1] => .ok "B"
     | [2] => .ok "C"
     | _ => .ok "?"⟩

/-- A secret whose ServerCert field is the empty string. -/
def dictEmptyCert : ConfigDict :=
  ⟨some "example.com", some 443, some "", some "B", some "C"⟩

/-- A fetch oracle returning the empty-ServerCert secret. -/
def fetchEmptyCert : String → Except PyError ConfigDict := fun _ => .ok dictEmptyCert

/-- A fetch oracle whose Secrets Manager call raises. -/
def fetchFail : String → Except PyError ConfigDict := fun _ => .error PyError.clientError

/-- Splitting on whitespace and concatenating the pieces removes exactly the
whitespace characters, in order. -/
theorem pySplitChars_flatten (l : List Char) (acc : List Char) :
    (pySplitChars l acc).flatten = acc.reverse ++ l.filter (fun c => !isPySpace c) := by
  induction l generalizing acc with
  | nil =>
    by_cases h : acc.isEmpty
    · simp [pySplitChars, h, List.isEmpty_iff.mp h]
    · simp [pySplitChars, h]
  | cons c cs ih =>
    by_cases hc : isPySpace c
    · by_cases h : acc.isEmpty
      · simp [pySplitChars, hc, h, ih, List.isEmpty_iff.mp h]
      · simp [pySplitChars, hc, h, ih]
    · simp [pySplitChars, hc, ih]

/-- Character-level description of pyStripAll. -/
theorem pyStripAll_data (s : String) :
    (pyStripAll s).data = s.data.filter (fun c => !isPySpace c) := by
  simp [pyStripAll, pySplitChars_flatten]

/-- Non-negative Python indices read from the front of the list. -/
theorem pyGet_nonneg (xs : List String) (i : Int) (h : 0 ≤ i) :
    pyGet xs i = xs.get? i.toNat := by
  simp [pyGet, h]

/-- For non-negative indices, extract_certificate never raises and returns the
whitespace-stripped entry when in range, None otherwise. -/
theorem extract_nonneg (cert_chain : List String) (index : Int) (h : 0 ≤ index) :
    extract_certificate cert_chain index =
      Except.ok ((cert_chain.get? index.toNat).map pyStripAll) := by
  unfold extract_certificate
  rw [pyGet_nonneg cert_chain index h]
  by_cases hlt : index < (cert_chain.length : Int)
  · rw [if_pos hlt]
    have hn : index.toNat < cert_chain.length := by omega
    rw [List.get?_eq_get hn]
    rfl
  · rw [if_neg hlt]
    have hn : cert_chain.length ≤ index.toNat := by omega
    rw [List.get?_eq_none.mpr hn]
    rfl

/-- Python == against an optional value is true exactly on the matching
string. -/
theorem pyEqOpt_true_iff (pinned : String) (retrieved : Option String) :
    pyEqOpt pinned retrieved = true ↔ retrieved = some pinned := by
  cases retrieved with
  | none => simp [pyEqOpt]
  | some s =>
    simp only [pyEqOpt, beq_iff_eq, Option.some.injEq]
    exact ⟨fun h => h.symm, fun h => h.symm⟩

/-- The comparison block never raises: it reduces to a pure three-way match on
the stripped entries at positions 0, 1, 2. -/
theorem decideAccess_ok (server_config : ServerConfig) (chain : List String) :
    decideAccess server_config chain =
      Except.ok
        (if [pyEqOpt server_config.ServerCert ((chain.get? 0).map pyStripAll),
             pyEqOpt server_config.IntermediateCert ((chain.get? 1).map pyStripAll),
             pyEqOpt server_config.RootCert ((chain.get? 2).map pyStripAll)].all id then
          Decision.Allow
        else Decision.Deny) := by
  unfold decideAccess
  rw [extract_nonneg chain 0 (by omega), extract_nonneg chain 1 (by omega),
    extract_nonneg chain 2 (by omega)]
  by_cases h : [pyEqOpt server_config.ServerCert ((chain.get? 0).map pyStripAll),
      pyEqOpt server_config.IntermediateCert ((chain.get? 1).map pyStripAll),
      pyEqOpt server_config.RootCert ((chain.get? 2).map pyStripAll)].all id
  · show (if [pyEqOpt server_config.ServerCert ((chain.get? 0).map pyStripAll),
          pyEqOpt server_config.IntermediateCert ((chain.get? 1).map pyStripAll),
          pyEqOpt server_config.RootCert ((chain.get? 2).map pyStripAll)].all id = true then
        (pure Decision.Allow : Except PyError Decision)
      else pure Decision.Deny) = _
    rw [if_pos h, if_pos h]
    rfl
  · show (if [pyEqOpt server_config.ServerCert ((chain.get? 0).map pyStripAll),
          pyEqOpt server_config.IntermediateCert ((chain.get? 1).map pyStripAll),
          pyEqOpt server_config.RootCert ((chain.get? 2).map pyStripAll)].all id = true then
        (pure Decision.Allow : Except PyError Decision)
      else pure Decision.Deny) = _
    rw [if_neg h, if_neg h]
    rfl

/-- If every element converts successfully, the comprehension succeeds with
the converted list in order. -/
theorem mapExcept_ok_of_forall (f : α → Except PyError β) (g : α → β) (l : List α)
    (h : ∀ a ∈ l, f a = .ok (g a)) : mapExcept f l = .ok (l.map g) := by
  induction l with
  | nil => rfl
  | cons a as ih =>
    have ha : f a = .ok (g a) := h a (List.mem_cons_self a as)
    have has := ih fun x hx => h x (List.mem_cons_of_mem a hx)
    rw [mapExcept, ha, has]
    rfl

/-- If any element fails to convert, the whole comprehension raises. -/
theorem mapExcept_error_of_mem (f : α → Except PyError β) (l : List α) (a : α) (e : PyError)
    (ha : a ∈ l) (hfa : f a = .error e) : ∃ e2, mapExcept f l = .error e2 := by
  induction l with
  | nil => simp at ha
  | cons b bs ih =>
    cases hfb : f b with
    | error eb => exact ⟨eb, by rw [mapExcept, hfb]; rfl⟩
    | ok vb =>
      rcases List.mem_cons.mp ha with rfl | hmem
      · rw [hfa] at hfb; cases hfb
      · obtain ⟨e2, h2⟩ := ih hmem
        exact ⟨e2, by rw [mapExcept, hfb, h2]; rfl⟩

/-- C9: Whitespace normalization is idempotent: stripping an already-stripped
string yields the same string. -/
theorem pyStripAll_idempotent (s : String) : pyStripAll (pyStripAll s) = pyStripAll s := by
  unfold pyStripAll
  congr 1
  simp only [pySplitChars_flatten, List.reverse_nil, List.nil_append]
  simp [List.filter_filter]

/-- C5: For every chain and non-negative index, extract_certificate never
raises: it returns the whitespace-stripped entry when the index is in range
and the explicit absent value None otherwise. -/
theorem extract_certificate_nonneg_spec (cert_chain : List String) (index : Int)
    (h : 0 ≤ index) :
    extract_certificate cert_chain index =
      Except.ok ((cert_chain.get? index.toNat).map pyStripAll) ∧
    (index < (cert_chain.length : Int) →
      ∃ s, cert_chain.get? index.toNat = some s ∧
        extract_certificate cert_chain index = Except.ok (some (pyStripAll s))) ∧
    ((cert_chain.length : Int) ≤ index → extract_certificate cert_chain index = Except.ok none) := by
  refine ⟨extract_nonneg cert_chain index h, ?_, ?_⟩
  · intro hlt
    have hn : index.toNat < cert_chain.length := by omega
    refine ⟨cert_chain.get ⟨index.toNat, hn⟩, List.get?_eq_get hn, ?_⟩
    rw [extract_nonneg cert_chain index h, List.get?_eq_get hn]
    rfl
  · intro hle
    have hn : cert_chain.length ≤ index.toNat := by omega
    rw [extract_nonneg cert_chain index h, List.get?_eq_none.mpr hn]
    rfl

/-- Witness for C5 at a concrete in-range and a concrete out-of-range index. -/
theorem extract_certificate_nonneg_spec_witness :
    extract_certificate ["-A A-", "B"] 0 = Except.ok (some "-AA-") ∧
    extract_certificate ["-A A-", "B"] 5 = Except.ok none := by
  constructor
  · have h := (extract_certificate_nonneg_spec ["-A A-", "B"] 0 (by decide)).1
    rw [h]
    rfl
  · have h := (extract_certificate_nonneg_spec ["-A A-", "B"] 5 (by decide)).2.2 (by decide)
    exact h

/-- C10: A negative index that is within -length .. -1 passes the bounds
check len(chain) > index, so extract_certificate returns the stripped entry
counted from the end of the chain, never the absent value. -/
theorem extract_certificate_negative_spec (cert_chain : List String) (index : Int)
    (h1 : cert_chain ≠ []) (h2 : -(cert_chain.length : Int) ≤ index) (h3 : index < 0) :
    ∃ s, cert_chain.get? ((cert_chain.length : Int) + index).toNat = some s ∧
      extract_certificate cert_chain index = Except.ok (some (pyStripAll s)) := by
  have hpos : 0 < cert_chain.length := List.length_pos.mpr h1
  have hn : ((cert_chain.length : Int) + index).toNat < cert_chain.length := by omega
  refine ⟨cert_chain.get ⟨((cert_chain.length : Int) + index).toNat, hn⟩,
    List.get?_eq_get hn, ?_⟩
  unfold extract_certificate
  rw [if_pos (by omega : index < (cert_chain.length : Int))]
  unfold pyGet
  rw [if_neg (by omega : ¬ 0 ≤ index),
    if_pos (by omega : 0 ≤ (cert_chain.length : Int) + index),
    List.get?_eq_get hn]

/-- Witness for C10: index -1 on a two-entry chain returns the stripped last
entry. -/
theorem extract_certificate_negative_spec_witness :
    extract_certificate ["a b", "c d"] (-1) = Except.ok (some "cd") := by
  obtain ⟨s, hs, he⟩ :=
    extract_certificate_negative_spec ["a b", "c d"] (-1) (by decide) (by decide) (by decide)
  have hc : (["a b", "c d"].get? (((["a b", "c d"].length : Nat) : Int) + (-1)).toNat) =
      some "c d" := by decide
  rw [hc] at hs
  rw [he, ← Option.some.inj hs]
  rfl

/-- C2: A retrieved chain with fewer than three entries always produces Deny,
whatever the pinned values are. -/
theorem short_chain_always_denies (server_config : ServerConfig) (chain : List String)
    (h : chain.length < 3) : decideAccess server_config chain = Except.ok Decision.Deny := by
  rw [decideAccess_ok]
  have h2 : chain.get? 2 = none := List.get?_eq_none.mpr (by omega)
  rw [h2]
  simp [pyEqOpt, List.all_cons]

/-- Witness for C2: the empty chain and a two-entry chain whose entries match
the pins both yield Deny. -/
theorem short_chain_always_denies_witness :
    decideAccess ⟨"h", 443, "A", "B", "C"⟩ [] = Except.ok Decision.Deny ∧
    decideAccess ⟨"h", 443, "A", "B", "C"⟩ ["A", "B"] = Except.ok Decision.Deny := by
  exact ⟨short_chain_always_denies ⟨"h", 443, "A", "B", "C"⟩ [] (by decide),
    short_chain_always_denies ⟨"h", 443, "A", "B", "C"⟩ ["A", "B"] (by decide)⟩

/-- C1: The decision is Allow iff at each of positions 0, 1, 2 the retrieved
entry exists and, whitespace-stripped, equals the corresponding pinned field;
otherwise (including any absent position) it is Deny, and an absent retrieved
value never compares equal to any pinned string. -/
theorem decideAccess_allow_iff (server_config : ServerConfig) (chain : List String) :
    (decideAccess server_config chain = Except.ok Decision.Allow ↔
      ((chain.get? 0).map pyStripAll = some server_config.ServerCert ∧
       (chain.get? 1).map pyStripAll = some server_config.IntermediateCert ∧
       (chain.get? 2).map pyStripAll = some server_config.RootCert)) ∧
    (decideAccess server_config chain = Except.ok Decision.Deny ↔
      ¬((chain.get? 0).map pyStripAll = some server_config.ServerCert ∧
        (chain.get? 1).map pyStripAll = some server_config.IntermediateCert ∧
        (chain.get? 2).map pyStripAll = some server_config.RootCert)) ∧
    (∀ pinned : String, pyEqOpt pinned none = false) := by
  have hiff : ([pyEqOpt server_config.ServerCert ((chain.get? 0).map pyStripAll),
      pyEqOpt server_config.IntermediateCert ((chain.get? 1).map pyStripAll),
      pyEqOpt server_config.RootCert ((chain.get? 2).map pyStripAll)].all id = true) ↔
      ((chain.get? 0).map pyStripAll = some server_config.ServerCert ∧
       (chain.get? 1).map pyStripAll = some server_config.IntermediateCert ∧
       (chain.get? 2).map pyStripAll = some server_config.RootCert) := by
    simp [List.all_cons, pyEqOpt_true_iff]
  refine ⟨?_, ?_, fun pinned => rfl⟩
  · rw [decideAccess_ok]
    by_cases hc : [pyEqOpt server_config.ServerCert ((chain.get? 0).map pyStripAll),
        pyEqOpt server_config.IntermediateCert ((chain.get? 1).map pyStripAll),
        pyEqOpt server_config.RootCert ((chain.get? 2).map pyStripAll)].all id
    · rw [if_pos hc]
      exact ⟨fun _ => hiff.mp hc, fun _ => rfl⟩
    · rw [if_neg hc]
      constructor
      · intro h
        simp at h
      · intro hp
        exact absurd (hiff.mpr hp) hc
  · rw [decideAccess_ok]
    by_cases hc : [pyEqOpt server_config.ServerCert ((chain.get? 0).map pyStripAll),
        pyEqOpt server_config.IntermediateCert ((chain.get? 1).map pyStripAll),
        pyEqOpt server_config.RootCert ((chain.get? 2).map pyStripAll)].all id
    · rw [if_pos hc]
      constructor
      · intro h
        simp at h
      · intro hp
        exact absurd (hiff.mp hc) hp
    · rw [if_neg hc]
      exact ⟨fun _ => fun hp => absurd (hiff.mpr hp) hc, fun _ => rfl⟩

/-- Reduction of an Except bind on a success value. -/
theorem pyBindOk {α β : Type} (a : α) (f : α → Except PyError β) :
    (do let x ← Except.ok a; f x : Except PyError β) = f a := rfl

/-- Reduction of an Except bind on a raised exception. -/
theorem pyBindError {α β : Type} (e : PyError) (f : α → Except PyError β) :
    (do let x ← Except.error e; f x : Except PyError β) = Except.error e := rfl

/-- Dict lookup of a present key. -/
theorem pyLookup_some (v : String) : pyLookup (some v) = Except.ok v := rfl

/-- Dict lookup of an absent key raises KeyError. -/
theorem pyLookup_none : pyLookup none = Except.error PyError.keyError := rfl

/-- C3: retrieval returns the empty chain on a handshake failure and on a
conversion failure of any entry, and on success returns one PEM text per DER
entry in the same server-to-root order; the exception never leaves the
component (every case yields a plain list). -/
theorem get_certificate_chain_spec (net : Network) (hostname : String) (port : Int) :
    (∀ e, net.handshake hostname port = .error e →
      get_certificate_chain net hostname port = []) ∧
    (∀ ders d e, net.handshake hostname port = .ok ders → d ∈ ders →
      net.derToPem d = .error e → get_certificate_chain net hostname port = []) ∧
    (∀ ders pemOf, net.handshake hostname port = .ok ders →
      (∀ d ∈ ders, net.derToPem d = .ok (pemOf d)) →
      get_certificate_chain net hostname port = ders.map pemOf) := by
  refine ⟨?_, ?_, ?_⟩
  · intro e he
    unfold get_certificate_chain
    rw [he]
    rfl
  · intro ders d e hh hmem hd
    obtain ⟨e2, h2⟩ := mapExcept_error_of_mem net.derToPem ders d e hmem hd
    unfold get_certificate_chain
    rw [hh]
    show (match mapExcept net.derToPem ders with
      | .ok pem_certificates => pem_certificates
      | .error _ => []) = ([] : List String)
    rw [h2]
  · intro ders pemOf hh hall
    have hmap := mapExcept_ok_of_forall net.derToPem pemOf ders hall
    unfold get_certificate_chain
    rw [hh]
    show (match mapExcept net.derToPem ders with
      | .ok pem_certificates => pem_certificates
      | .error _ => []) = ders.map pemOf
    rw [hmap]

/-- Witness for C3: a refused connection yields the empty chain; a successful
two-certificate handshake yields the two PEM texts in order. -/
theorem get_certificate_chain_spec_witness :
    get_certificate_chain netRefused "example.com" 443 = [] ∧
    get_certificate_chain netTwoCerts "example.com" 443 = ["PEM", "PEM"] := by
  constructor
  · exact (get_certificate_chain_spec netRefused "example.com" 443).1
      PyError.connectionRefused rfl
  · have h := (get_certificate_chain_spec netTwoCerts "example.com" 443).2.2
      [[1], [2]] (fun _ => "PEM") rfl (fun d _ => rfl)
    simpa using h

/-- C7: A ServerConfig built from a complete configuration stores its three
certificate fields with every whitespace character removed and the remaining
characters unchanged and in order (no case folding, no re-encoding); host and
port are stored untouched. -/
theorem serverConfig_fields_whitespace_free (u : String) (p : Int) (sc ic rc : String)
    (cfg : ServerConfig)
    (h : ServerConfig.fromDict ⟨some u, some p, some sc, some ic, some rc⟩ = Except.ok cfg) :
    cfg.ServerCert.data = sc.data.filter (fun c => !isPySpace c) ∧
    cfg.IntermediateCert.data = ic.data.filter (fun c => !isPySpace c) ∧
    cfg.RootCert.data = rc.data.filter (fun c => !isPySpace c) ∧
    (∀ c ∈ cfg.ServerCert.data, isPySpace c = false) ∧
    (∀ c ∈ cfg.IntermediateCert.data, isPySpace c = false) ∧
    (∀ c ∈ cfg.RootCert.data, isPySpace c = false) ∧
    cfg.URL = u ∧ cfg.Port = p := by
  have hc : cfg = ⟨u, p, pyStripAll sc, pyStripAll ic, pyStripAll rc⟩ := by
    have h2 : Except.ok (α := ServerConfig) (ε := PyError)
        ⟨u, p, pyStripAll sc, pyStripAll ic, pyStripAll rc⟩ = Except.ok cfg := h
    exact (Except.ok.inj h2).symm
  subst hc
  refine ⟨pyStripAll_data sc, pyStripAll_data ic, pyStripAll_data rc, ?_, ?_, ?_, rfl, rfl⟩
  · intro c hmem
    rw [pyStripAll_data] at hmem
    simpa using (List.mem_filter.mp hmem).2
  · intro c hmem
    rw [pyStripAll_data] at hmem
    simpa using (List.mem_filter.mp hmem).2
  · intro c hmem
    rw [pyStripAll_data] at hmem
    simpa using (List.mem_filter.mp hmem).2

/-- Witness for C7 on a secret whose ServerCert is "A A". -/
theorem serverConfig_fields_whitespace_free_witness :
    (⟨"example.com", 443, "AA", "B", "C"⟩ : ServerConfig).ServerCert.data =
      ("A A" : String).data.filter (fun c => !isPySpace c) :=
  (serverConfig_fields_whitespace_free "example.com" 443 "A A" "B" "C"
    ⟨"example.com", 443, "AA", "B", "C"⟩ rfl).1

/-- Reduction of pure in the Except monad. -/
theorem pyPure {α : Type} (a : α) : (pure a : Except PyError α) = Except.ok a := rfl

/-- Counterexample to C4: construction from a configuration whose ServerCert
field is the empty string does not raise; it succeeds, the handler proceeds to
retrieval, and against a live chain whose server entry strips to the empty
string it even returns Allow. -/
theorem fromDict_empty_cert_counterexample :
    ServerConfig.fromDict dictEmptyCert = Except.ok ⟨"example.com", 443, "", "B", "C"⟩ ∧
    lambda_handler ⟨some "1.2.3.4", some "arn"⟩ (some "secret") fetchEmptyCert netBlankServer =
      Except.ok (generate_policy "1.2.3.4" "Allow" "arn") := ⟨rfl, rfl⟩

/-- C4 amended: ServerConfig construction performs no validation beyond field
presence: with all five fields present it always succeeds (empty certificate
or host strings and non-positive ports included), storing the certificate
fields whitespace-stripped; only an absent field fails, with a TypeError. -/
theorem fromDict_no_validation (u : String) (p : Int) (sc ic rc : String) (d : ConfigDict)
    (hd : d = ⟨some u, some p, some sc, some ic, some rc⟩) :
    ServerConfig.fromDict d =
      Except.ok ⟨u, p, pyStripAll sc, pyStripAll ic, pyStripAll rc⟩ ∧
    (∀ d2 : ConfigDict, d2.URL = none ∨ d2.Port = none ∨ d2.ServerCert = none ∨
      d2.IntermediateCert = none ∨ d2.RootCert = none →
      ServerConfig.fromDict d2 = Except.error PyError.typeError) := by
  subst hd
  refine ⟨rfl, ?_⟩
  intro d2 hnone
  obtain ⟨u2, p2, sc2, ic2, rc2⟩ := d2
  cases u2 <;> cases p2 <;> cases sc2 <;> cases ic2 <;> cases rc2 <;>
    first
      | rfl
      | simp at hnone

/-- Witness for C4 amended: empty ServerCert, whitespace-only host field would
still pass; port 0 is accepted. -/
theorem fromDict_no_validation_witness :
    ServerConfig.fromDict ⟨some "example.com", some 0, some " ", some "B", some "C"⟩ =
      Except.ok ⟨"example.com", 0, "", "B", "C"⟩ := by
  have h := (fromDict_no_validation "example.com" 0 " " "B" "C"
    ⟨some "example.com", some 0, some " ", some "B", some "C"⟩ rfl).1
  rw [h]
  rfl

/-- Counterexample to C6: an event missing the nested source-address entry
makes the handler raise a KeyError before any other step; the exception
escapes and no policy is returned. -/
theorem lambda_handler_missing_field_raises :
    lambda_handler ⟨none, some "arn"⟩ (some "secret") fetchFail netRefused =
      Except.error PyError.keyError := rfl

/-- C6 amended: for every event that carries the caller source address and the
method ARN, and every environment, secret store and network, the handler
returns a well-formed policy (fixed Version, execute-api:Invoke action, the
ARN of the event) whose effect is Allow or Deny; no exception escapes on any of
the paths. -/
theorem lambda_handler_wellformed (event : Event) (ip arn : String)
    (secret_name : Option String) (fetch : String → Except PyError ConfigDict) (net : Network)
    (h1 : event.sourceIp = some ip) (h2 : event.methodArn = some arn) :
    ∃ principal effect, (effect = "Allow" ∨ effect = "Deny") ∧
      lambda_handler event secret_name fetch net =
        Except.ok (generate_policy principal effect arn) := by
  cases secret_name with
  | none =>
    refine ⟨ip, "Deny", Or.inr rfl, ?_⟩
    simp [lambda_handler, h1, h2, pyLookup_some, pyBindOk, pyPure]
  | some sn =>
    by_cases hsn : sn = ""
    · subst hsn
      refine ⟨ip, "Deny", Or.inr rfl, ?_⟩
      simp [lambda_handler, h1, h2, pyLookup_some, pyBindOk, pyPure]
    · cases hload : loadConfig fetch sn with
      | error e =>
        refine ⟨"user", "Deny", Or.inr rfl, ?_⟩
        simp [lambda_handler, h1, h2, hsn, hload, pyLookup_some, pyBindOk, pyPure]
      | ok cfg =>
        by_cases hemp : (get_certificate_chain net cfg.URL cfg.Port).isEmpty
        · refine ⟨ip, "Deny", Or.inr rfl, ?_⟩
          simp [lambda_handler, h1, h2, hsn, hload, hemp, pyLookup_some, pyBindOk, pyPure]
        · by_cases hc : pyEqOpt cfg.ServerCert
              ((get_certificate_chain net cfg.URL cfg.Port)[0]?.map pyStripAll) = true ∧
              pyEqOpt cfg.IntermediateCert
              ((get_certificate_chain net cfg.URL cfg.Port)[1]?.map pyStripAll) = true ∧
              pyEqOpt cfg.RootCert
              ((get_certificate_chain net cfg.URL cfg.Port)[2]?.map pyStripAll) = true
          · refine ⟨ip, "Allow", Or.inl rfl, ?_⟩
            simp [lambda_handler, h1, h2, hsn, hload, hemp, decideAccess_ok, hc,
              pyLookup_some, pyBindOk, pyPure]
          · refine ⟨ip, "Deny", Or.inr rfl, ?_⟩
            simp [lambda_handler, h1, h2, hsn, hload, hemp, decideAccess_ok, hc,
              pyLookup_some, pyBindOk, pyPure]

/-- Witness for C6 amended: with a present source address and ARN but no
secret-name environment variable, the handler returns a policy. -/
theorem lambda_handler_wellformed_witness :
    ∃ principal effect, (effect = "Allow" ∨ effect = "Deny") ∧
      lambda_handler ⟨some "1.2.3.4", some "arn"⟩ none fetchFail netRefused =
        Except.ok (generate_policy principal effect "arn") :=
  lambda_handler_wellformed ⟨some "1.2.3.4", some "arn"⟩ "1.2.3.4" "arn" none
    fetchFail netRefused rfl rfl

/-- C8: only the configuration-retrieval failure path substitutes the fixed
placeholder "user" as principal identifier; the missing-secret-name path, the
retrieval-failure path and both comparison outcomes all carry the caller
source address. -/
theorem principal_identifier_paths (event : Event) (ip arn sn : String)
    (fetch : String → Except PyError ConfigDict) (net : Network)
    (h1 : event.sourceIp = some ip) (h2 : event.methodArn = some arn) (hsn : sn ≠ "") :
    (∀ e, loadConfig fetch sn = .error e →
      lambda_handler event (some sn) fetch net =
        Except.ok (generate_policy "user" "Deny" arn)) ∧
    (lambda_handler event none fetch net = Except.ok (generate_policy ip "Deny" arn)) ∧
    (lambda_handler event (some "") fetch net = Except.ok (generate_policy ip "Deny" arn)) ∧
    (∀ cfg, loadConfig fetch sn = .ok cfg →
      (get_certificate_chain net cfg.URL cfg.Port).isEmpty = true →
      lambda_handler event (some sn) fetch net =
        Except.ok (generate_policy ip "Deny" arn)) ∧
    (∀ cfg, loadConfig fetch sn = .ok cfg →
      (get_certificate_chain net cfg.URL cfg.Port).isEmpty = false →
      (lambda_handler event (some sn) fetch net =
          Except.ok (generate_policy ip "Allow" arn) ∨
       lambda_handler event (some sn) fetch net =
          Except.ok (generate_policy ip "Deny" arn))) := by
  refine ⟨?_, ?_, ?_, ?_, ?_⟩
  · intro e hload
    simp [lambda_handler, h1, h2, hsn, hload, pyLookup_some, pyBindOk, pyPure]
  · simp [lambda_handler, h1, h2, pyLookup_some, pyBindOk, pyPure]
  · simp [lambda_handler, h1, h2, pyLookup_some, pyBindOk, pyPure]
  · intro cfg hload hemp
    simp [lambda_handler, h1, h2, hsn, hload, hemp, pyLookup_some, pyBindOk, pyPure]
  · intro cfg hload hemp
    by_cases hc : pyEqOpt cfg.ServerCert
        ((get_certificate_chain net cfg.URL cfg.Port)[0]?.map pyStripAll) = true ∧
        pyEqOpt cfg.IntermediateCert
        ((get_certificate_chain net cfg.URL cfg.Port)[1]?.map pyStripAll) = true ∧
        pyEqOpt cfg.RootCert
        ((get_certificate_chain net cfg.URL cfg.Port)[2]?.map pyStripAll) = true
    · left
      simp [lambda_handler, h1, h2, hsn, hload, hemp, decideAccess_ok, hc,
        pyLookup_some, pyBindOk, pyPure]
    · right
      simp [lambda_handler, h1, h2, hsn, hload, hemp, decideAccess_ok, hc,
        pyLookup_some, pyBindOk, pyPure]

/-- Witness for C8: a failing secret fetch produces the placeholder
principal, and a missing secret name keeps the caller address. -/
theorem principal_identifier_paths_witness :
    lambda_handler ⟨some "1.2.3.4", some "arn"⟩ (some "secret") fetchFail netRefused =
      Except.ok (generate_policy "user" "Deny" "arn") ∧
    lambda_handler ⟨some "1.2.3.4", some "arn"⟩ none fetchFail netRefused =
      Except.ok (generate_policy "1.2.3.4" "Deny" "arn") := by
  have h := principal_identifier_paths ⟨some "1.2.3.4", some "arn"⟩ "1.2.3.4" "arn" "secret"
    fetchFail netRefused rfl rfl (by decide)
  exact ⟨h.1 PyError.clientError rfl, h.2.1⟩

